import Mathlib

/- Shallow embedding of the interaction/animation subsystem of src/app/page.tsx.
   JavaScript numbers are modelled as exact rationals, timestamps produced by
   Date.now() as natural-number milliseconds, and performance.now() values as
   rationals.  React hook state is modelled as explicit records, and the event
   handlers as pure state-transition functions that also return the list of
   externally observable effects they perform. -/

-- Performance tier values of usePerformanceMonitor's performanceLevel state
-- ("high" | "medium" | "low", page.tsx line 19).
inductive PerfLevel
  | high
  | medium
  | low
  deriving DecidableEq

-- Math.round rounds half-integers toward positive infinity.
def jsRound (q : ℚ) : ℤ := ⌊q + 1 / 2⌋

-- State of usePerformanceMonitor (page.tsx lines 17-24): the fps and
-- performanceLevel useState cells plus the frameCount, lastTime and
-- fpsHistory refs.
structure MonitorState where
  fps : ℕ
  performanceLevel : PerfLevel
  frameCount : ℕ
  lastTime : ℚ
  fpsHistory : List ℕ

-- fpsHistory.current.push(currentFPS); if (length > 10) shift()
-- (page.tsx lines 35-38).
def pushFpsHistory (h : List ℕ) (f : ℕ) : List ℕ :=
  let h2 := h ++ [f]
  if h2.length > 10 then h2.tail else h2

-- if (avgFPS >= 55) "high" else if (avgFPS >= 35) "medium" else "low"
-- (page.tsx lines 44-50).
def performanceLevelOf (avg : ℚ) : PerfLevel :=
  if avg ≥ 55 then .high else if avg ≥ 35 then .medium else .low

-- Body of the completed-window branch of measureFPS (page.tsx lines 31-50),
-- applied with the rounded FPS value of the window that just completed:
-- records the window sample, evicts beyond 10, recomputes the rolling
-- average and the performance level.
def commitWindow (s : MonitorState) (currentFPS : ℕ) : MonitorState :=
  let history := pushFpsHistory s.fpsHistory currentFPS
  let avg : ℚ := (history.sum : ℚ) / (history.length : ℚ)
  { s with fps := currentFPS, fpsHistory := history,
           performanceLevel := performanceLevelOf avg }

-- measureFPS (page.tsx lines 26-59): per-frame callback; counts the frame
-- and, once the window has lasted at least 1000ms, commits the window with
-- currentFPS = Math.round(frameCount * 1000 / elapsed) and resets the
-- counter and the window start.
def measureFPS (s : MonitorState) (now : ℚ) : MonitorState :=
  let s1 := { s with frameCount := s.frameCount + 1 }
  if now - s.lastTime ≥ 1000 then
    let currentFPS := (jsRound ((s1.frameCount : ℚ) * 1000 / (now - s.lastTime))).toNat
    { commitWindow s1 currentFPS with frameCount := 0, lastTime := now }
  else s1

-- Initial hook state (page.tsx lines 18-23): fps 60, level "high", empty
-- history; t0 is the value of performance.now() at mount.
def initMonitorState (t0 : ℚ) : MonitorState :=
  { fps := 60, performanceLevel := .high, frameCount := 0,
    lastTime := t0, fpsHistory := [] }

-- Exposed avgFPS (page.tsx lines 86-89): rounded mean of the history when
-- non-empty, and exactly 60 before the first window completes.
def avgFPS (s : MonitorState) : ℤ :=
  if s.fpsHistory.length > 0 then
    jsRound ((s.fpsHistory.sum : ℚ) / (s.fpsHistory.length : ℚ))
  else 60

-- useOptimizedAnimation (page.tsx lines 94-118): the switch on
-- performanceLevel sets animationQuality to 1 / 0.7 / 0.4 and shouldAnimate
-- to enabled, except under "low" where it is enabled && innerWidth > 768.
def animationQualityOf : PerfLevel → ℚ
  | .high => 1
  | .medium => 0.7
  | .low => 0.4

def useOptimizedAnimation (level : PerfLevel) (enabled : Bool) (innerWidth : ℚ) : ℚ × Bool :=
  (animationQualityOf level,
   match level with
   | .low => enabled && decide (innerWidth > 768)
   | _ => enabled)

-- useScrollAnimation (page.tsx lines 121-152).  The observer callback only
-- ever sets isVisible to true and then unobserves the target; re-running the
-- effect (on a performanceLevel change) re-attaches a fresh observer.
inductive RevealEvt
  | intersectionChange (isIntersecting : Bool)
  | observerReattach

structure RevealState where
  isVisible : Bool
  observing : Bool

def revealStep (s : RevealState) : RevealEvt → RevealState
  | .intersectionChange hit =>
      if s.observing && hit then { isVisible := true, observing := false } else s
  | .observerReattach => { s with observing := true }

def revealRun (s : RevealState) : List RevealEvt → RevealState
  | [] => s
  | e :: es => revealRun (revealStep s e) es

-- handleTouchEnd's decay interval (page.tsx lines 349-361): each 16ms tick
-- multiplies both components by 0.92 and, once both are within 0.01 of zero,
-- clears the interval and snaps the position to exactly (0, 0).  The Bool
-- records whether the interval has been cleared.
def touchEndDecayStep (p : ℚ × ℚ) : (ℚ × ℚ) × Bool :=
  let newX := p.1 * 0.92
  let newY := p.2 * 0.92
  if |newX| < 0.01 ∧ |newY| < 0.01 then ((0, 0), true) else ((newX, newY), false)

def touchEndDecay (p : ℚ × ℚ) : ℕ → (ℚ × ℚ) × Bool
  | 0 => (p, false)
  | n + 1 =>
      let prev := touchEndDecay p n
      if prev.2 then prev else touchEndDecayStep prev.1

-- Squared Euclidean magnitude of a position.
def sqNorm (p : ℚ × ℚ) : ℚ := p.1 ^ 2 + p.2 ^ 2

-- useHapticFeedback (page.tsx lines 207-267).  hasVibrateAPI models
-- ("vibrate" in navigator); checkSupport (lines 213-217) keeps
-- isSupported = isMobile && hasVibrateAPI, which we model as a derived value.
structure HapticState where
  hasVibrateAPI : Bool
  isMobile : Bool
  isEnabled : Bool
  deriving DecidableEq

def hapticIsSupported (s : HapticState) : Bool := s.isMobile && s.hasVibrateAPI

-- A vibration pattern argument: number | number[].
inductive VibPattern
  | single (ms : ℕ)
  | seq (ms : List ℕ)
  deriving DecidableEq

-- vibrate (page.tsx lines 231-239): returns the list of underlying
-- navigator.vibrate invocations performed (empty when gated off; the
-- try/catch around the call swallows failures and is not observable here).
def vibrate (s : HapticState) (p : VibPattern) : List VibPattern :=
  if hapticIsSupported s && s.isEnabled && s.isMobile then [p] else []

-- toggleHaptics (page.tsx lines 241-250).  The vibrate closure it calls was
-- created in the same render, so its gate reads the pre-toggle isEnabled
-- value (React state is constant within a render): the call is
-- `vibrate s (single 15)`, not a call against the updated state.
structure ToggleResult where
  state : HapticState
  persisted : String
  vibrationCalls : List VibPattern
  deriving DecidableEq

def toggleHaptics (s : HapticState) : ToggleResult :=
  let newState := !s.isEnabled
  { state := { s with isEnabled := newState }
    persisted := toString newState
    vibrationCalls := if newState then vibrate s (VibPattern.single 15) else [] }

def c7FailingInput : HapticState :=
  { hasVibrateAPI := true, isMobile := true, isEnabled := false }

-- useTouchPosition's event handlers (page.tsx lines 281-362), restricted to
-- the haptic-throttling behaviour.  Config carries window.innerWidth,
-- window.innerHeight and animationQuality, all constant over a trace.
structure TouchCfg where
  innerWidth : ℚ
  innerHeight : ℚ
  animationQuality : ℚ

-- Math.max(-0.8, Math.min(0.8, v)) clamping of each normalized axis.
def clampAxis (v : ℚ) : ℚ := max (-0.8) (min 0.8 v)

def touchPointOf (cfg : TouchCfg) (clientX clientY : ℚ) : ℚ × ℚ :=
  (clampAxis ((clientX - cfg.innerWidth / 2) / cfg.innerWidth * cfg.animationQuality),
   clampAxis ((clientY - cfg.innerHeight / 2) / cfg.innerHeight * cfg.animationQuality))

inductive TouchEvt
  | touchStart (t : ℕ) (clientX clientY : ℚ)
  | touchMove (t : ℕ) (clientX clientY : ℚ)
  | touchEnd (t : ℕ)

def TouchEvt.time : TouchEvt → ℕ
  | .touchStart t _ _ => t
  | .touchMove t _ _ => t
  | .touchEnd t => t

-- Categories of the vibrate calls issued by the three handlers:
-- vibrate(patterns.touch) on touchstart, vibrate(patterns.gentle) on a large
-- touchmove, vibrate(patterns.release) on touchend.
inductive PulseCat
  | touchStartPulse
  | movePulse
  | releasePulse
  deriving DecidableEq

structure TouchState where
  isActive : Bool
  lastVibrateTime : ℕ
  touchPosition : ℚ × ℚ

def initTouchState : TouchState :=
  { isActive := false, lastVibrateTime := 0, touchPosition := (0, 0) }

-- handleTouchStart (lines 281-305), handleTouchMove (lines 307-340) and
-- handleTouchEnd (lines 342-362), each returning the updated state and the
-- vibrate calls it issues, tagged with the Date.now() timestamp of the
-- event.  The distance > 0.6 test of handleTouchMove is translated as
-- squared distance > 0.36 (both sides of the source comparison are
-- nonnegative, so squaring is exact).  requestAnimationFrame coalescing is
-- modelled as running each handler body at its event.
def handleTouchEvt (cfg : TouchCfg) (s : TouchState) : TouchEvt → TouchState × List (ℕ × PulseCat)
  | .touchStart t cx cy =>
      let p := touchPointOf cfg cx cy
      if t - s.lastVibrateTime > 100 then
        ({ isActive := true, lastVibrateTime := t, touchPosition := p },
         [(t, .touchStartPulse)])
      else
        ({ s with isActive := true, touchPosition := p }, [])
  | .touchMove t cx cy =>
      if s.isActive then
        let p := touchPointOf cfg cx cy
        if t - s.lastVibrateTime > 300 then
          if p.1 ^ 2 + p.2 ^ 2 > 0.36 then
            ({ s with touchPosition := p, lastVibrateTime := t }, [(t, .movePulse)])
          else ({ s with touchPosition := p }, [])
        else ({ s with touchPosition := p }, [])
      else (s, [])
  | .touchEnd t => ({ s with isActive := false }, [(t, .releasePulse)])

def runTouch (cfg : TouchCfg) (s : TouchState) : List TouchEvt → TouchState × List (ℕ × PulseCat)
  | [] => (s, [])
  | e :: es =>
      let step := handleTouchEvt cfg s e
      let rest := runTouch cfg step.1 es
      (rest.1, step.2 ++ rest.2)

-- useInteractionPosition (page.tsx lines 483-532).  mousePosition and
-- touchPosition hold the already-normalized mouse offset and smoothed touch
-- position produced by useMousePosition / useTouchPosition; orientationX/Y
-- the smoothed orientation of useDeviceOrientation; screenWidth the
-- screenSize.width state; touchCapable models ("ontouchstart" in window).
structure FusionState where
  mousePosition : ℚ × ℚ
  touchPosition : ℚ × ℚ
  touchActive : Bool
  orientationX : ℚ
  orientationY : ℚ
  orientationSupported : Bool
  screenWidth : ℚ
  touchCapable : Bool

-- isMobile = width < 768 || "ontouchstart" in window (page.tsx line 495).
def fusionIsMobile (s : FusionState) : Bool :=
  decide (s.screenWidth < 768) || s.touchCapable

-- getScreenSizeMultiplier (page.tsx lines 504-508).
def getScreenSizeMultiplier (w : ℚ) : ℚ :=
  if w < 400 then 0.7 else if w < 768 then 0.85 else 1

def useInteractionPosition (s : FusionState) : ℚ × ℚ :=
  let sizeMultiplier := getScreenSizeMultiplier s.screenWidth
  if fusionIsMobile s then
    if s.touchActive then
      (s.touchPosition.1 * sizeMultiplier, s.touchPosition.2 * sizeMultiplier)
    else if s.orientationSupported then
      (s.orientationX * 0.15 * sizeMultiplier, s.orientationY * 0.1 * sizeMultiplier)
    else (0, 0)
  else s.mousePosition

-- ParallaxElement (page.tsx lines 534-612): size classes and transform.
inductive ElemSize
  | small
  | medium
  | large
  deriving DecidableEq

-- getSizeMultiplier (page.tsx lines 569-578).
def getSizeMultiplier : ElemSize → ℚ
  | .small => 1.2
  | .large => 0.6
  | .medium => 1

-- maxMovement = (size === "large" ? 30 : size === "small" ? 60 : 45) *
-- animationQuality (page.tsx line 584).
def maxMovementOf (size : ElemSize) (quality : ℚ) : ℚ :=
  (match size with | .large => 30 | .small => 60 | .medium => 45) * quality

-- The per-size displacement cap before quality scaling.
def maxDisplacement : ElemSize → ℚ
  | .small => 60
  | .medium => 45
  | .large => 30

-- The translate3d arguments of the animated branch (page.tsx line 604):
-- x = clamp(ix * adjustedInteractionSpeed * 40) and
-- y = scrollOffset + clamp(iy * adjustedInteractionSpeed * 25), where
-- adjustedInteractionSpeed = interactionSpeed * sizeMultiplier *
-- animationQuality (line 581) and clamp bounds by ±maxMovement.
def parallaxTransform (size : ElemSize) (level : PerfLevel)
    (interactionSpeed scrollOffset ix iy : ℚ) : ℚ × ℚ :=
  let animationQuality := animationQualityOf level
  let adjustedInteractionSpeed := interactionSpeed * getSizeMultiplier size * animationQuality
  let maxMovement := maxMovementOf size animationQuality
  (max (-maxMovement) (min maxMovement (ix * adjustedInteractionSpeed * 40)),
   scrollOffset + max (-maxMovement) (min maxMovement (iy * adjustedInteractionSpeed * 25)))

-- Concrete fusion states used to instantiate the C1 theorem.
def fusionSampleTouch : FusionState :=
  { mousePosition := (0, 0), touchPosition := (0.2, 0.4), touchActive := true,
    orientationX := 0.5, orientationY := 0.5, orientationSupported := true,
    screenWidth := 500, touchCapable := true }

def fusionSampleOrient : FusionState :=
  { mousePosition := (0, 0), touchPosition := (0.2, 0.4), touchActive := false,
    orientationX := 0.5, orientationY := -0.5, orientationSupported := true,
    screenWidth := 390, touchCapable := true }

def fusionSampleNone : FusionState :=
  { mousePosition := (0, 0), touchPosition := (0.2, 0.4), touchActive := false,
    orientationX := 0.5, orientationY := 0.5, orientationSupported := false,
    screenWidth := 500, touchCapable := true }

def fusionSampleDesktop : FusionState :=
  { mousePosition := (0.25, -0.1), touchPosition := (0.2, 0.4), touchActive := false,
    orientationX := 0.5, orientationY := 0.5, orientationSupported := true,
    screenWidth := 1024, touchCapable := false }

-- Concrete touch configuration and trace used to instantiate the C8 theorem.
def touchSampleCfg : TouchCfg :=
  { innerWidth := 800, innerHeight := 600, animationQuality := 1 }

def touchSampleTrace : List TouchEvt :=
  [TouchEvt.touchStart 0 400 300, TouchEvt.touchEnd 50,
   TouchEvt.touchStart 200 400 300, TouchEvt.touchEnd 260]

/- Helper lemmas (shared across the claim theorems below). -/

-- Clamping with Math.max/Math.min stays within the bound.
theorem abs_clamp_le {m v : ℚ} (hm : 0 ≤ m) : |max (-m) (min m v)| ≤ m := by
  rw [abs_le]
  exact ⟨le_max_left _ _, max_le (by linarith) (min_le_left _ _)⟩

theorem touchEndDecayStep_sqNorm_le (p : ℚ × ℚ) :
    sqNorm (touchEndDecayStep p).1 ≤ sqNorm p := by
  simp only [touchEndDecayStep]
  split
  · simp only [sqNorm]
    nlinarith [sq_nonneg p.1, sq_nonneg p.2]
  · simp only [sqNorm]
    nlinarith [sq_nonneg p.1, sq_nonneg p.2]

theorem touchEndDecayStep_stopped (p : ℚ × ℚ)
    (h : (touchEndDecayStep p).2 = true) : (touchEndDecayStep p).1 = (0, 0) := by
  simp only [touchEndDecayStep] at h ⊢
  split at h
  · simp_all
  · simp at h

theorem touchEndDecay_succ (p : ℚ × ℚ) (n : ℕ) :
    touchEndDecay p (n + 1) =
      if (touchEndDecay p n).2 = true then touchEndDecay p n
      else touchEndDecayStep (touchEndDecay p n).1 := rfl

theorem touchEndDecay_stopped_zero (p : ℚ × ℚ) :
    ∀ n, (touchEndDecay p n).2 = true → (touchEndDecay p n).1 = (0, 0)
  | 0, h => by simp [touchEndDecay] at h
  | n + 1, h => by
      rw [touchEndDecay_succ] at h ⊢
      by_cases hp : (touchEndDecay p n).2 = true
      · rw [if_pos hp] at h ⊢
        exact touchEndDecay_stopped_zero p n hp
      · rw [if_neg hp] at h ⊢
        exact touchEndDecayStep_stopped _ h

theorem revealStep_visible (s : RevealState) (e : RevealEvt)
    (h : s.isVisible = true) : (revealStep s e).isVisible = true := by
  cases e with
  | intersectionChange hit =>
      simp only [revealStep]
      split
      · rfl
      · exact h
  | observerReattach => simpa [revealStep] using h

/-- C10: before the first measurement window completes (the FPS history is
empty), the exposed avgFPS is exactly 60 and the performance level is high,
so consumers start at full animation quality. -/
theorem avgFPS_initial (t0 : ℚ) :
    avgFPS (initMonitorState t0) = 60 ∧
    (initMonitorState t0).performanceLevel = PerfLevel.high :=
  ⟨rfl, rfl⟩

/-- C3: the Adaptive Animation Policy is a pure function of the performance
tier, the enabled flag and the viewport width: the quality factor is 1, 0.7
and 0.4 for high, medium and low, and shouldAnimate is false exactly when the
flag is false or the tier is low with viewport width at most 768. -/
theorem useOptimizedAnimation_policy (t : PerfLevel) (e : Bool) (w : ℚ) :
    (useOptimizedAnimation PerfLevel.high e w).1 = 1 ∧
    (useOptimizedAnimation PerfLevel.medium e w).1 = 0.7 ∧
    (useOptimizedAnimation PerfLevel.low e w).1 = 0.4 ∧
    ((useOptimizedAnimation t e w).2 = false ↔
      e = false ∨ (t = PerfLevel.low ∧ w ≤ 768)) := by
  refine ⟨rfl, rfl, rfl, ?_⟩
  cases t <;> cases e <;> simp [useOptimizedAnimation, not_lt]

/-- C4: for every raw interaction input, scroll offset, size class and
performance tier, the Transform Compositor's interaction displacement on each
axis never exceeds maxDisplacement(size) * qualityFactor in absolute value
(on the y axis, relative to the scroll offset it is added to). -/
theorem parallaxTransform_clamped (size : ElemSize) (level : PerfLevel)
    (interactionSpeed scrollOffset ix iy : ℚ) :
    |(parallaxTransform size level interactionSpeed scrollOffset ix iy).1| ≤
      maxDisplacement size * animationQualityOf level ∧
    |(parallaxTransform size level interactionSpeed scrollOffset ix iy).2 - scrollOffset| ≤
      maxDisplacement size * animationQualityOf level := by
  have hm : maxMovementOf size (animationQualityOf level) =
      maxDisplacement size * animationQualityOf level := by
    cases size <;> rfl
  have hnn : 0 ≤ maxMovementOf size (animationQualityOf level) := by
    cases size <;> cases level <;> norm_num [maxMovementOf, animationQualityOf]
  constructor
  · simpa [parallaxTransform, hm] using abs_clamp_le (hm ▸ hnn)
  · have h2 : (parallaxTransform size level interactionSpeed scrollOffset ix iy).2 -
        scrollOffset =
        max (-(maxMovementOf size (animationQualityOf level)))
          (min (maxMovementOf size (animationQualityOf level))
            (iy * (interactionSpeed * getSizeMultiplier size * animationQualityOf level) * 25)) := by
      simp [parallaxTransform]
    rw [h2, ← hm] at *
    exact abs_clamp_le hnn

/-- C5: each tick of the touch-release decay multiplies both components by
0.92, so the squared magnitude never increases, and as soon as both
components have magnitude below 0.01 the next tick snaps the position to
exactly (0, 0) and clears the interval. -/
theorem touchEndDecay_monotone_and_snap (p : ℚ × ℚ) (n : ℕ) :
    sqNorm (touchEndDecay p (n + 1)).1 ≤ sqNorm (touchEndDecay p n).1 ∧
    (|(touchEndDecay p n).1.1| < 0.01 → |(touchEndDecay p n).1.2| < 0.01 →
      touchEndDecay p (n + 1) = ((0, 0), true)) := by
  constructor
  · rw [touchEndDecay_succ]
    by_cases hp : (touchEndDecay p n).2 = true
    · rw [if_pos hp]
    · rw [if_neg hp]
      exact touchEndDecayStep_sqNorm_le _
  · intro hx hy
    rw [touchEndDecay_succ]
    by_cases hp : (touchEndDecay p n).2 = true
    · have hz := touchEndDecay_stopped_zero p n hp
      rw [if_pos hp]
      exact Prod.ext_iff.mpr ⟨hz, hp⟩
    · rw [if_neg hp]
      have hx92 : |(touchEndDecay p n).1.1 * 0.92| < 0.01 := by
        rw [abs_mul]
        have h1 : |(0.92 : ℚ)| = 0.92 := by norm_num
        rw [h1]
        nlinarith [abs_nonneg (touchEndDecay p n).1.1]
      have hy92 : |(touchEndDecay p n).1.2 * 0.92| < 0.01 := by
        rw [abs_mul]
        have h1 : |(0.92 : ℚ)| = 0.92 := by norm_num
        rw [h1]
        nlinarith [abs_nonneg (touchEndDecay p n).1.2]
      simp [touchEndDecayStep, hx92, hy92]

/-- C5 witness: starting the decay at (0.005, 0.005), whose components are
already below 0.01 in magnitude, the first tick yields exactly (0, 0) with
the interval cleared, and the squared magnitude does not increase. -/
theorem touchEndDecay_witness :
    sqNorm (touchEndDecay (0.005, 0.005) 1).1 ≤ sqNorm (touchEndDecay (0.005, 0.005) 0).1 ∧
    touchEndDecay (0.005, 0.005) 1 = ((0, 0), true) :=
  ⟨(touchEndDecay_monotone_and_snap (0.005, 0.005) 0).1,
   (touchEndDecay_monotone_and_snap (0.005, 0.005) 0).2
     (by rw [abs_lt]; norm_num [touchEndDecay])
     (by rw [abs_lt]; norm_num [touchEndDecay])⟩

/-- C6: vibrate makes no underlying navigator.vibrate call whenever the
platform vibration capability is absent, or the device is non-mobile, or the
user preference is disabled; each of the three gates suffices on its own. -/
theorem vibrate_gates (s : HapticState) (p : VibPattern)
    (h : s.hasVibrateAPI = false ∨ s.isMobile = false ∨ s.isEnabled = false) :
    vibrate s p = [] := by
  rcases h with h | h | h <;> simp [vibrate, hapticIsSupported, h]

/-- C6 witness: with the vibration capability absent (but a mobile device and
the preference enabled), vibrate performs no underlying call. -/
theorem vibrate_gates_witness :
    vibrate { hasVibrateAPI := false, isMobile := true, isEnabled := true }
      (VibPattern.single 12) = [] :=
  vibrate_gates _ _ (Or.inl rfl)

/-- C7: on a capable mobile device with haptics disabled, toggleHaptics flips
the preference to enabled and persists "true", but performs no underlying
vibration call: the confirmation pulse is guarded by the vibrate closure of
the same render, whose gate still reads the pre-toggle disabled preference,
so the pulse claimed on the disabled-to-enabled transition never fires. -/
theorem toggleHaptics_enable_fires_no_pulse :
    (toggleHaptics c7FailingInput).state.isEnabled = true ∧
    (toggleHaptics c7FailingInput).persisted = "true" ∧
    (toggleHaptics c7FailingInput).vibrationCalls = [] := by
  refine ⟨rfl, rfl, rfl⟩

/-- C9: in reveal mode the Visibility Tracker's revealed flag is one-shot:
once isVisible is true, no sequence of further intersection changes or
observer re-attachments ever makes it false again. -/
theorem useScrollAnimation_one_shot (s : RevealState) (evts : List RevealEvt)
    (h : s.isVisible = true) : (revealRun s evts).isVisible = true := by
  induction evts generalizing s with
  | nil => simpa [revealRun] using h
  | cons e es ih =>
      show (revealRun (revealStep s e) es).isVisible = true
      exact ih _ (revealStep_visible s e h)

/-- C9 witness: a revealed element stays revealed across a non-intersecting
intersection change followed by an observer re-attachment. -/
theorem useScrollAnimation_one_shot_witness :
    (revealRun { isVisible := true, observing := false }
      [RevealEvt.intersectionChange false, RevealEvt.observerReattach,
       RevealEvt.intersectionChange false]).isVisible = true :=
  useScrollAnimation_one_shot _ _ rfl

theorem pushFpsHistory_suffix {h l : List ℕ} (f : ℕ) (hs : h <:+ l) :
    pushFpsHistory h f <:+ l ++ [f] := by
  have happ : h ++ [f] <:+ l ++ [f] := by
    obtain ⟨t, ht⟩ := hs
    exact ⟨t, by rw [← List.append_assoc, ht]⟩
  simp only [pushFpsHistory]
  split
  · exact (List.tail_suffix _).trans happ
  · exact happ

theorem pushFpsHistory_length {h : List ℕ} (f : ℕ) (hl : h.length ≤ 10) :
    (pushFpsHistory h f).length = min 10 (h.length + 1) := by
  simp only [pushFpsHistory]
  split <;> simp_all <;> omega

theorem foldl_pushFpsHistory_suffix :
    ∀ (fs : List ℕ) {h l : List ℕ}, h <:+ l →
      fs.foldl pushFpsHistory h <:+ l ++ fs
  | [], h, l, hs => by simpa using hs
  | f :: rest, h, l, hs => by
      have h2 := foldl_pushFpsHistory_suffix rest (pushFpsHistory_suffix f hs)
      simpa [List.foldl] using h2

theorem foldl_pushFpsHistory_length :
    ∀ (fs : List ℕ) {h : List ℕ}, h.length ≤ 10 →
      (fs.foldl pushFpsHistory h).length = min 10 (h.length + fs.length)
  | [], h, hl => by simp; omega
  | f :: rest, h, hl => by
      have h1 := pushFpsHistory_length f hl
      have h2 := foldl_pushFpsHistory_length rest (h := pushFpsHistory h f) (by omega)
      simp only [List.foldl] at h2 ⊢
      rw [h2, h1]
      simp only [List.length_cons]
      omega

theorem foldl_commitWindow_history :
    ∀ (fs : List ℕ) (s : MonitorState),
      (fs.foldl commitWindow s).fpsHistory = fs.foldl pushFpsHistory s.fpsHistory
  | [], _ => rfl
  | f :: rest, s => by
      have h2 := foldl_commitWindow_history rest (commitWindow s f)
      simpa [List.foldl, commitWindow] using h2

theorem foldl_commitWindow_level :
    ∀ (fs : List ℕ) (s : MonitorState), fs ≠ [] →
      (fs.foldl commitWindow s).performanceLevel =
        performanceLevelOf
          (((fs.foldl commitWindow s).fpsHistory.sum : ℚ) /
            ((fs.foldl commitWindow s).fpsHistory.length : ℚ))
  | [], _, hne => absurd rfl hne
  | [f], s, _ => rfl
  | f :: g :: rest, s, _ => by
      have h2 := foldl_commitWindow_level (g :: rest) (commitWindow s f) (by simp)
      simpa [List.foldl] using h2

/-- C2: after any non-empty sequence of completed measurement windows, the
stored FPS history is exactly a suffix of the window samples of length
min(10, n) — so never more than 10 samples — and the performance level is the
55/35 step function of the rolling average, which is the arithmetic mean of
that stored history. -/
theorem measureFPS_rolling_average (t0 : ℚ) (fs : List ℕ) (hne : fs ≠ []) :
    (fs.foldl commitWindow (initMonitorState t0)).fpsHistory <:+ fs ∧
    (fs.foldl commitWindow (initMonitorState t0)).fpsHistory.length = min 10 fs.length ∧
    (fs.foldl commitWindow (initMonitorState t0)).fpsHistory.length ≤ 10 ∧
    (fs.foldl commitWindow (initMonitorState t0)).performanceLevel =
      performanceLevelOf
        (((fs.foldl commitWindow (initMonitorState t0)).fpsHistory.sum : ℚ) /
          ((fs.foldl commitWindow (initMonitorState t0)).fpsHistory.length : ℚ)) := by
  have hh := foldl_commitWindow_history fs (initMonitorState t0)
  have hinit : (initMonitorState t0).fpsHistory = ([] : List ℕ) := rfl
  rw [hinit] at hh
  have hsuf := foldl_pushFpsHistory_suffix fs (h := ([] : List ℕ)) (l := ([] : List ℕ))
    List.nil_suffix
  have hlen := foldl_pushFpsHistory_length fs (h := ([] : List ℕ)) (by simp)
  refine ⟨?_, ?_, ?_, foldl_commitWindow_level fs _ hne⟩
  · rw [hh]
    simpa using hsuf
  · rw [hh, hlen]
    simp
  · rw [hh, hlen]
    omega

/-- C2 witness: the window sample sequence 60, 40, 20 leaves a three-sample
history that is a suffix of the sequence with the claimed length bound, and a
performance level given by the step function of its mean. -/
theorem measureFPS_rolling_average_witness :
    ([60, 40, 20].foldl commitWindow (initMonitorState 0)).fpsHistory <:+ [60, 40, 20] ∧
    ([60, 40, 20].foldl commitWindow (initMonitorState 0)).fpsHistory.length =
      min 10 ([60, 40, 20] : List ℕ).length ∧
    ([60, 40, 20].foldl commitWindow (initMonitorState 0)).fpsHistory.length ≤ 10 ∧
    ([60, 40, 20].foldl commitWindow (initMonitorState 0)).performanceLevel =
      performanceLevelOf
        ((([60, 40, 20].foldl commitWindow (initMonitorState 0)).fpsHistory.sum : ℚ) /
          ((([60, 40, 20].foldl commitWindow (initMonitorState 0)).fpsHistory.length : ℚ))) :=
  measureFPS_rolling_average 0 [60, 40, 20] (by simp)

/-- C1: the Pointer Fusion Engine selects exactly one source: on a
mobile-class state (viewport width below 768 or touch-capable) an active
touch yields the smoothed touch position scaled by the screen-size
multiplier regardless of orientation data; otherwise supported orientation
yields the smoothed orientation scaled by 0.15/0.1 and the multiplier;
otherwise exactly (0, 0); on a non-mobile state the output is the normalized
mouse offset held in mousePosition. -/
theorem useInteractionPosition_fusion (s : FusionState) :
    (fusionIsMobile s = true → s.touchActive = true →
      useInteractionPosition s =
        (s.touchPosition.1 * getScreenSizeMultiplier s.screenWidth,
         s.touchPosition.2 * getScreenSizeMultiplier s.screenWidth)) ∧
    (fusionIsMobile s = true → s.touchActive = false → s.orientationSupported = true →
      useInteractionPosition s =
        (s.orientationX * 0.15 * getScreenSizeMultiplier s.screenWidth,
         s.orientationY * 0.1 * getScreenSizeMultiplier s.screenWidth)) ∧
    (fusionIsMobile s = true → s.touchActive = false → s.orientationSupported = false →
      useInteractionPosition s = (0, 0)) ∧
    (fusionIsMobile s = false → useInteractionPosition s = s.mousePosition) := by
  refine ⟨?_, ?_, ?_, ?_⟩
  · intro hm ht
    simp [useInteractionPosition, hm, ht]
  · intro hm ht ho
    simp [useInteractionPosition, hm, ht, ho]
  · intro hm ht ho
    simp [useInteractionPosition, hm, ht, ho]
  · intro hm
    simp [useInteractionPosition, hm]

/-- C1 witness: the four fusion branches evaluated at concrete states — an
active touch on a 500px touch screen, orientation-only input on a 390px
screen, no input source on a 500px screen, and a 1024px non-touch desktop. -/
theorem useInteractionPosition_fusion_witness :
    useInteractionPosition fusionSampleTouch =
      (fusionSampleTouch.touchPosition.1 * getScreenSizeMultiplier fusionSampleTouch.screenWidth,
       fusionSampleTouch.touchPosition.2 * getScreenSizeMultiplier fusionSampleTouch.screenWidth) ∧
    useInteractionPosition fusionSampleOrient =
      (fusionSampleOrient.orientationX * 0.15 * getScreenSizeMultiplier fusionSampleOrient.screenWidth,
       fusionSampleOrient.orientationY * 0.1 * getScreenSizeMultiplier fusionSampleOrient.screenWidth) ∧
    useInteractionPosition fusionSampleNone = (0, 0) ∧
    useInteractionPosition fusionSampleDesktop = fusionSampleDesktop.mousePosition :=
  ⟨(useInteractionPosition_fusion fusionSampleTouch).1 (by decide) rfl,
   (useInteractionPosition_fusion fusionSampleOrient).2.1 (by decide) rfl rfl,
   (useInteractionPosition_fusion fusionSampleNone).2.2.1 (by decide) rfl rfl,
   (useInteractionPosition_fusion fusionSampleDesktop).2.2.2 (by decide)⟩


theorem runTouch_pulse_gaps (cfg : TouchCfg) :
    ∀ (evts : List TouchEvt) (s : TouchState),
      (∀ e ∈ evts, s.lastVibrateTime ≤ e.time) →
      evts.Pairwise (fun a b => a.time ≤ b.time) →
      (∀ p ∈ (runTouch cfg s evts).2,
          (p.2 = PulseCat.touchStartPulse → s.lastVibrateTime + 100 < p.1) ∧
          (p.2 = PulseCat.movePulse → s.lastVibrateTime + 300 < p.1)) ∧
      ((runTouch cfg s evts).2.filter
          (fun p => decide (p.2 = PulseCat.touchStartPulse))).Pairwise
        (fun p q => p.1 + 100 < q.1) ∧
      ((runTouch cfg s evts).2.filter
          (fun p => decide (p.2 = PulseCat.movePulse))).Pairwise
        (fun p q => p.1 + 300 < q.1) := by
  intro evts
  induction evts with
  | nil =>
      intro s _ _
      simp [runTouch]
  | cons e es ih =>
      intro s hlast hmono
      rw [List.pairwise_cons] at hmono
      obtain ⟨hhd, htl⟩ := hmono
      have hlast_tl : ∀ e' ∈ es, s.lastVibrateTime ≤ e'.time :=
        fun e' he' => hlast e' (List.mem_cons_of_mem _ he')
      cases e with
      | touchStart t cx cy =>
          by_cases hth : t - s.lastVibrateTime > 100
          · have hstep : handleTouchEvt cfg s (TouchEvt.touchStart t cx cy) = ({ isActive := true, lastVibrateTime := t, touchPosition := touchPointOf cfg cx cy }, [(t, PulseCat.touchStartPulse)]) := by
              simp [handleTouchEvt, hth]
            have hlast1 : ∀ e' ∈ es, ({ isActive := true, lastVibrateTime := t, touchPosition := touchPointOf cfg cx cy } : TouchState).lastVibrateTime ≤ e'.time := by
              intro e' he'
              simpa [TouchEvt.time] using hhd e' he'
            obtain ⟨hb, hps, hpm⟩ := ih _ hlast1 htl
            have hproj : ({ isActive := true, lastVibrateTime := t, touchPosition := touchPointOf cfg cx cy } : TouchState).lastVibrateTime = t := rfl
            rw [hproj] at hb
            simp only [runTouch, hstep, List.cons_append, List.nil_append]
            refine ⟨?_, ?_, ?_⟩
            · intro p hp
              rcases List.mem_cons.mp hp with hp | hp
              · subst hp
                refine ⟨fun _ => by omega, fun hmv => absurd hmv (by simp)⟩
              · have hbp := hb p hp
                exact ⟨fun h1 => by have := hbp.1 h1; omega,
                       fun h2 => by have := hbp.2 h2; omega⟩
            · rw [List.filter_cons_of_pos (by simp)]
              rw [List.pairwise_cons]
              refine ⟨?_, hps⟩
              intro q hq
              have hq2 := List.mem_filter.mp hq
              exact (hb q hq2.1).1 (by simpa using hq2.2)
            · rw [List.filter_cons_of_neg (by simp)]
              exact hpm
          · have hstep : handleTouchEvt cfg s (TouchEvt.touchStart t cx cy) = ({ s with isActive := true, touchPosition := touchPointOf cfg cx cy }, []) := by
              simp [handleTouchEvt, hth]
            obtain ⟨hb, hps, hpm⟩ := ih ({ s with isActive := true, touchPosition := touchPointOf cfg cx cy }) (by intro e' he'; simpa using hlast_tl e' he') htl
            simp only [runTouch, hstep, List.nil_append]
            exact ⟨hb, hps, hpm⟩
      | touchMove t cx cy =>
          by_cases hact : s.isActive = true
          · by_cases h300 : t - s.lastVibrateTime > 300
            · by_cases hdist : (touchPointOf cfg cx cy).1 ^ 2 + (touchPointOf cfg cx cy).2 ^ 2 > 0.36
              · have hstep : handleTouchEvt cfg s (TouchEvt.touchMove t cx cy) = ({ s with touchPosition := touchPointOf cfg cx cy, lastVibrateTime := t }, [(t, PulseCat.movePulse)]) := by
                  simp [handleTouchEvt, hact, h300, hdist]
                have hlast1 : ∀ e' ∈ es, ({ s with touchPosition := touchPointOf cfg cx cy, lastVibrateTime := t } : TouchState).lastVibrateTime ≤ e'.time := by
                  intro e' he'
                  simpa [TouchEvt.time] using hhd e' he'
                obtain ⟨hb, hps, hpm⟩ := ih _ hlast1 htl
                have hproj : ({ s with touchPosition := touchPointOf cfg cx cy, lastVibrateTime := t } : TouchState).lastVibrateTime = t := rfl
                rw [hproj] at hb
                simp only [runTouch, hstep, List.cons_append, List.nil_append]
                refine ⟨?_, ?_, ?_⟩
                · intro p hp
                  rcases List.mem_cons.mp hp with hp | hp
                  · subst hp
                    refine ⟨fun hst => absurd hst (by simp), fun _ => by omega⟩
                  · have hbp := hb p hp
                    exact ⟨fun h1 => by have := hbp.1 h1; omega,
                           fun h2 => by have := hbp.2 h2; omega⟩
                · rw [List.filter_cons_of_neg (by simp)]
                  exact hps
                · rw [List.filter_cons_of_pos (by simp)]
                  rw [List.pairwise_cons]
                  refine ⟨?_, hpm⟩
                  intro q hq
                  have hq2 := List.mem_filter.mp hq
                  exact (hb q hq2.1).2 (by simpa using hq2.2)
              · have hstep : handleTouchEvt cfg s (TouchEvt.touchMove t cx cy) = ({ s with touchPosition := touchPointOf cfg cx cy }, []) := by
                  simp [handleTouchEvt, hact, h300, hdist]
                obtain ⟨hb, hps, hpm⟩ := ih ({ s with touchPosition := touchPointOf cfg cx cy }) (by intro e' he'; simpa using hlast_tl e' he') htl
                simp only [runTouch, hstep, List.nil_append]
                exact ⟨hb, hps, hpm⟩
            · have hstep : handleTouchEvt cfg s (TouchEvt.touchMove t cx cy) = ({ s with touchPosition := touchPointOf cfg cx cy }, []) := by
                simp [handleTouchEvt, hact, h300]
              obtain ⟨hb, hps, hpm⟩ := ih ({ s with touchPosition := touchPointOf cfg cx cy }) (by intro e' he'; simpa using hlast_tl e' he') htl
              simp only [runTouch, hstep, List.nil_append]
              exact ⟨hb, hps, hpm⟩
          · have hstep : handleTouchEvt cfg s (TouchEvt.touchMove t cx cy) = (s, []) := by
              simp [handleTouchEvt, hact]
            obtain ⟨hb, hps, hpm⟩ := ih s hlast_tl htl
            simp only [runTouch, hstep, List.nil_append]
            exact ⟨hb, hps, hpm⟩
      | touchEnd t =>
          have hstep : handleTouchEvt cfg s (TouchEvt.touchEnd t) = ({ s with isActive := false }, [(t, PulseCat.releasePulse)]) := rfl
          obtain ⟨hb, hps, hpm⟩ := ih ({ s with isActive := false }) (by intro e' he'; simpa using hlast_tl e' he') htl
          simp only [runTouch, hstep, List.cons_append, List.nil_append]
          refine ⟨?_, ?_, ?_⟩
          · intro p hp
            rcases List.mem_cons.mp hp with hp | hp
            · subst hp
              exact ⟨fun hst => absurd hst (by simp), fun hmv => absurd hmv (by simp)⟩
            · exact hb p hp
          · rw [List.filter_cons_of_neg (by simp)]
            exact hps
          · rw [List.filter_cons_of_neg (by simp)]
            exact hpm

/-- C8: over any touch-event trace with non-decreasing Date.now timestamps,
two touch-start haptic pulses are always more than 100ms apart and two
move-triggered pulses always more than 300ms apart (the shared
lastVibrateTime throttle guarantees both cooldowns). -/
theorem touchHapticThrottle (cfg : TouchCfg) (evts : List TouchEvt)
    (hmono : evts.Pairwise (fun a b => a.time ≤ b.time)) :
    ((runTouch cfg initTouchState evts).2.filter
        (fun p => decide (p.2 = PulseCat.touchStartPulse))).Pairwise
      (fun p q => p.1 + 100 < q.1) ∧
    ((runTouch cfg initTouchState evts).2.filter
        (fun p => decide (p.2 = PulseCat.movePulse))).Pairwise
      (fun p q => p.1 + 300 < q.1) := by
  have h := runTouch_pulse_gaps cfg evts initTouchState
    (fun e _ => Nat.zero_le _) hmono
  exact ⟨h.2.1, h.2.2⟩

/-- C8 witness: on a concrete four-event trace with non-decreasing
timestamps, the touch-start pulses respect the 100ms cooldown and the
move-triggered pulses the 300ms cooldown. -/
theorem touchHapticThrottle_witness :
    ((runTouch touchSampleCfg initTouchState touchSampleTrace).2.filter
        (fun p => decide (p.2 = PulseCat.touchStartPulse))).Pairwise
      (fun p q => p.1 + 100 < q.1) ∧
    ((runTouch touchSampleCfg initTouchState touchSampleTrace).2.filter
        (fun p => decide (p.2 = PulseCat.movePulse))).Pairwise
      (fun p q => p.1 + 300 < q.1) :=
  touchHapticThrottle touchSampleCfg touchSampleTrace (by decide)
